import Mathlib

/-!
Verification of the `impl Add<Duration> for OffsetDateTime` in `src/time_03.rs`
of the iso8601-duration repository (the `time` 0.3 backend).

Modelling conventions:

* The `Duration` struct (declared outside `src/`, with six `f32` fields) is
  modelled with exact rational fields.  Every finite `f32` value is a rational
  number, so the claims are settled on the rational model; `as` casts from
  `f32` to the integer types follow Rust semantics (truncation toward zero,
  saturating at the bounds of the target type).
* Machine integers are modelled as `ℤ`/`ℕ` with explicit two's-complement
  wrapping (`% 2^32`, `% 2^64`) at every operation where the Rust release
  profile wraps.  Explicit `expect` panics of the `time` crate (overflow when
  adding two `time::Duration` values) are modelled as `Option.none`.
* The consumed primitives of the `time` crate (`Month::try_from`,
  `Month::length`, `Date::from_calendar_date`, `Date::saturating_add`,
  `OffsetDateTime::saturating_add`, the `(date, time, offset)` accessors) are
  modelled from their documented behaviour: dates range over the years
  -9999..=9999, day arithmetic is true calendar-day arithmetic, and the
  saturating operations clamp to `Date::MIN`/`Date::MAX` resp. to
  `PrimitiveDateTime::MIN`/`PrimitiveDateTime::MAX` with the offset kept.
  `OffsetDateTime` is represented, as in `time` 0.3, by its local date, its
  local time of day (nanoseconds since midnight) and its fixed UTC offset.
-/

namespace Iso8601

set_option maxRecDepth 40000

/-- Truncation of a rational toward zero, the rounding used by Rust `as` casts
from a float to an integer type. -/
def ratTrunc (q : ℚ) : ℤ := if 0 ≤ q then ⌊q⌋ else ⌈q⌉

/-- Rust `as u32` cast from a float: truncate toward zero, saturate to
`[0, u32::MAX]`. -/
def f2u32 (q : ℚ) : ℕ := (min (ratTrunc q) 4294967295).toNat

/-- Rust `as i32` cast from a float: truncate toward zero, saturate to
`[i32::MIN, i32::MAX]`. -/
def f2i32 (q : ℚ) : ℤ := max (-2147483648) (min (ratTrunc q) 2147483647)

/-- Rust `as i64` cast from a float: truncate toward zero, saturate to
`[i64::MIN, i64::MAX]`. -/
def f2i64 (q : ℚ) : ℤ := max (-9223372036854775808) (min (ratTrunc q) 9223372036854775807)

/-- Two's-complement wrap-around of `i32` arithmetic (Rust release profile). -/
def wrapI32 (n : ℤ) : ℤ := (n + 2147483648) % 4294967296 - 2147483648

/-- Two's-complement wrap-around of `i64` arithmetic (Rust release profile). -/
def wrapI64 (n : ℤ) : ℤ :=
  (n + 9223372036854775808) % 18446744073709551616 - 9223372036854775808

/-- Rust `as i32` cast of a `u32` value: bitwise reinterpretation. -/
def u32AsI32 (n : ℕ) : ℤ := if n < 2147483648 then (n : ℤ) else (n : ℤ) - 4294967296

/-- Gregorian leap-year predicate, as in `time::util::is_leap_year` (the
`year % 25`/`year % 16` form used there is extensionally the standard rule). -/
def isLeapYear (y : ℤ) : Bool := decide (y % 4 = 0 ∧ (y % 100 ≠ 0 ∨ y % 400 = 0))

/-- Month-length table of a common year. -/
def monthLenC (m : ℕ) : ℕ :=
  match m with
  | 1 => 31
  | 2 => 28
  | 3 => 31
  | 4 => 30
  | 5 => 31
  | 6 => 30
  | 7 => 31
  | 8 => 31
  | 9 => 30
  | 10 => 31
  | 11 => 30
  | 12 => 31
  | _ => 0

/-- Month-length table of a leap year. -/
def monthLenL (m : ℕ) : ℕ :=
  match m with
  | 1 => 31
  | 2 => 29
  | 3 => 31
  | 4 => 30
  | 5 => 31
  | 6 => 30
  | 7 => 31
  | 8 => 31
  | 9 => 30
  | 10 => 31
  | 11 => 30
  | 12 => 31
  | _ => 0

/-- Month-length table, parameterised by the leap-year flag. -/
def monthLen (leap : Bool) (m : ℕ) : ℕ :=
  if leap then monthLenL m else monthLenC m

/-- Number of days of month `m` (1-based) of year `y`, as in
`time::Month::length`; months outside 1..=12 do not occur behind the
`Month::try_from` guard. -/
def daysInMonth (y : ℤ) (m : ℕ) : ℕ := monthLen (isLeapYear y) m

/-- Days of a common year strictly before month `m` (1-based). -/
def daysBeforeMonthC (m : ℕ) : ℕ :=
  match m with
  | 1 => 0
  | 2 => 31
  | 3 => 59
  | 4 => 90
  | 5 => 120
  | 6 => 151
  | 7 => 181
  | 8 => 212
  | 9 => 243
  | 10 => 273
  | 11 => 304
  | 12 => 334
  | _ => 0

/-- Days of a leap year strictly before month `m` (1-based). -/
def daysBeforeMonthL (m : ℕ) : ℕ :=
  match m with
  | 1 => 0
  | 2 => 31
  | 3 => 60
  | 4 => 91
  | 5 => 121
  | 6 => 152
  | 7 => 182
  | 8 => 213
  | 9 => 244
  | 10 => 274
  | 11 => 305
  | 12 => 335
  | _ => 0

/-- Days of the year strictly before month `m` (1-based). -/
def daysBeforeMonth (leap : Bool) (m : ℕ) : ℕ :=
  if leap then daysBeforeMonthL m else daysBeforeMonthC m

/-- A calendar date, as produced by `Date::to_calendar_date`: year, 1-based
month, 1-based day. -/
structure Date where
  year : ℤ
  month : ℕ
  day : ℕ
deriving DecidableEq

/-- The invariant of `time::Date` (default features): year in -9999..=9999 and
a day valid for the (year, month) pair. -/
def validDate (d : Date) : Prop :=
  -9999 ≤ d.year ∧ d.year ≤ 9999 ∧ 1 ≤ d.month ∧ d.month ≤ 12 ∧
    1 ≤ d.day ∧ d.day ≤ daysInMonth d.year d.month

instance (d : Date) : Decidable (validDate d) := by
  unfold validDate
  infer_instance

/-- `time::Date::MIN`. -/
def dateMin : Date := ⟨-9999, 1, 1⟩

/-- `time::Date::MAX`. -/
def dateMax : Date := ⟨9999, 12, 31⟩

/-- Days from the January 1 of (proleptic) year -10000 up to the January 1 of
the year `Y - 10000`, i.e. `Y` years after the epoch year.  Written with
Euclidean division so that `omega` can reason about it. -/
def dby (Y : ℤ) : ℤ := 365 * Y + ((Y + 3) / 4 - (Y + 99) / 100 + (Y + 399) / 400)

/-- Day number of a date: days elapsed since -10000-01-01.  This is the day
numbering used to model the calendar-day-accurate arithmetic of `time`
(`to_julian_day` shifted by a constant). -/
def toN (d : Date) : ℤ :=
  dby (d.year + 10000) + (daysBeforeMonth (isLeapYear d.year) d.month : ℤ) + d.day - 1

/-- Shifted year (year + 10000) containing day number `n`: a multiplicative
guess corrected by at most one in each direction. -/
def yearOf (n : ℤ) : ℤ :=
  let g := 400 * n / 146097
  if n < dby g then g - 1 else if n < dby (g + 1) then g else g + 1

/-- Month (1-based) of the `r`-th day (0-based) of a common year. -/
def monthOfYearDayC (r : ℤ) : ℕ :=
  if r < 31 then 1
  else if r < 59 then 2
  else if r < 90 then 3
  else if r < 120 then 4
  else if r < 151 then 5
  else if r < 181 then 6
  else if r < 212 then 7
  else if r < 243 then 8
  else if r < 273 then 9
  else if r < 304 then 10
  else if r < 334 then 11
  else 12

/-- Month (1-based) of the `r`-th day (0-based) of a leap year. -/
def monthOfYearDayL (r : ℤ) : ℕ :=
  if r < 31 then 1
  else if r < 60 then 2
  else if r < 91 then 3
  else if r < 121 then 4
  else if r < 152 then 5
  else if r < 182 then 6
  else if r < 213 then 7
  else if r < 244 then 8
  else if r < 274 then 9
  else if r < 305 then 10
  else if r < 335 then 11
  else 12

/-- Month (1-based) of the `r`-th day (0-based) of a year. -/
def monthOfYearDay (leap : Bool) (r : ℤ) : ℕ :=
  if leap then monthOfYearDayL r else monthOfYearDayC r

/-- Date with day number `n` (inverse of `toN` on the representable range). -/
def fromN (n : ℤ) : Date :=
  ⟨yearOf n - 10000,
    monthOfYearDay (isLeapYear (yearOf n - 10000)) (n - dby (yearOf n)),
    (n - dby (yearOf n) -
      daysBeforeMonth (isLeapYear (yearOf n - 10000))
        (monthOfYearDay (isLeapYear (yearOf n - 10000)) (n - dby (yearOf n)))).toNat + 1⟩

/-- Day number of `Date::MIN`. -/
def minN : ℤ := toN dateMin

/-- Day number of `Date::MAX`. -/
def maxN : ℤ := toN dateMax

theorem yearOf_spec (n : ℤ) : dby (yearOf n) ≤ n ∧ n < dby (yearOf n + 1) := by
  simp only [yearOf, dby]
  split_ifs <;> constructor <;> (try simp only [sub_add_cancel]) <;> omega

theorem dby_mono (a b : ℤ) (hab : a ≤ b) : dby a ≤ dby b := by
  unfold dby
  omega

theorem yearOf_eq (n Y : ℤ) (h1 : dby Y ≤ n) (h2 : n < dby (Y + 1)) : yearOf n = Y := by
  have hs := yearOf_spec n
  by_contra hne
  rcases lt_or_gt_of_ne hne with hlt | hgt
  · have hle := dby_mono (yearOf n + 1) Y (by omega)
    omega
  · have hle := dby_mono (Y + 1) (yearOf n) (by omega)
    omega

theorem dby_step (Y : ℤ) :
    dby (Y + 1) = dby Y + (if isLeapYear (Y - 10000) then 366 else 365) := by
  have hiff : isLeapYear (Y - 10000) = true ↔
      (Y % 4 = 0 ∧ (Y % 100 ≠ 0 ∨ Y % 400 = 0)) := by
    unfold isLeapYear
    rw [decide_eq_true_iff]
    omega
  rcases hb : isLeapYear (Y - 10000) with _ | _
  · have hnot : ¬(Y % 4 = 0 ∧ (Y % 100 ≠ 0 ∨ Y % 400 = 0)) := by
      intro hc
      rw [← hiff] at hc
      simp [hb] at hc
    simp only [if_neg, Bool.false_eq_true, if_false]
    unfold dby
    omega
  · have hyes : Y % 4 = 0 ∧ (Y % 100 ≠ 0 ∨ Y % 400 = 0) := hiff.mp hb
    simp only [if_pos]
    unfold dby
    omega

theorem monthLen_false (m : ℕ) : monthLen false m = monthLenC m := rfl

theorem monthLen_true (m : ℕ) : monthLen true m = monthLenL m := rfl

theorem daysBeforeMonth_false (m : ℕ) : daysBeforeMonth false m = daysBeforeMonthC m := rfl

theorem daysBeforeMonth_true (m : ℕ) : daysBeforeMonth true m = daysBeforeMonthL m := rfl

theorem monthOfYearDay_false (r : ℤ) : monthOfYearDay false r = monthOfYearDayC r := rfl

theorem monthOfYearDay_true (r : ℤ) : monthOfYearDay true r = monthOfYearDayL r := rfl


set_option maxHeartbeats 1600000 in
theorem monthOfYearDayC_mem (r : ℤ) (h1 : 0 ≤ r) (h2 : r < 365) :
    1 ≤ monthOfYearDayC r ∧ monthOfYearDayC r ≤ 12 ∧
      (daysBeforeMonthC (monthOfYearDayC r) : ℤ) ≤ r ∧
      r - daysBeforeMonthC (monthOfYearDayC r) + 1 ≤ monthLenC (monthOfYearDayC r) := by
  unfold monthOfYearDayC
  split_ifs <;> simp only [daysBeforeMonthC, monthLenC] <;> omega

set_option maxHeartbeats 1600000 in
theorem monthOfYearDayL_mem (r : ℤ) (h1 : 0 ≤ r) (h2 : r < 366) :
    1 ≤ monthOfYearDayL r ∧ monthOfYearDayL r ≤ 12 ∧
      (daysBeforeMonthL (monthOfYearDayL r) : ℤ) ≤ r ∧
      r - daysBeforeMonthL (monthOfYearDayL r) + 1 ≤ monthLenL (monthOfYearDayL r) := by
  unfold monthOfYearDayL
  split_ifs <;> simp only [daysBeforeMonthL, monthLenL] <;> omega

theorem tableC_le (m : ℕ) (h1 : 1 ≤ m) (h2 : m ≤ 12) :
    (daysBeforeMonthC m : ℤ) + monthLenC m ≤ 365 := by
  interval_cases m <;> decide

theorem tableL_le (m : ℕ) (h1 : 1 ≤ m) (h2 : m ≤ 12) :
    (daysBeforeMonthL m : ℤ) + monthLenL m ≤ 366 := by
  interval_cases m <;> decide

theorem tableC_disjoint (k m : ℕ) (h1 : 1 ≤ k) (h2 : k < m) (h3 : m ≤ 12) :
    (daysBeforeMonthC k : ℤ) + monthLenC k ≤ daysBeforeMonthC m := by
  have hk : k ≤ 11 := by omega
  interval_cases k <;> interval_cases m <;> decide

theorem tableL_disjoint (k m : ℕ) (h1 : 1 ≤ k) (h2 : k < m) (h3 : m ≤ 12) :
    (daysBeforeMonthL k : ℤ) + monthLenL k ≤ daysBeforeMonthL m := by
  have hk : k ≤ 11 := by omega
  interval_cases k <;> interval_cases m <;> decide

theorem monthOfYearDayC_eq_of (r : ℤ) (m : ℕ) (h1 : 1 ≤ m) (h2 : m ≤ 12)
    (hlo : (daysBeforeMonthC m : ℤ) ≤ r)
    (hhi : r < (daysBeforeMonthC m : ℤ) + monthLenC m) :
    monthOfYearDayC r = m := by
  have hr0 : 0 ≤ r := by
    have : (0 : ℤ) ≤ (daysBeforeMonthC m : ℤ) := Int.natCast_nonneg _
    omega
  have hr365 : r < 365 := by
    have := tableC_le m h1 h2
    omega
  obtain ⟨hk1, hk2, hk3, hk4⟩ := monthOfYearDayC_mem r hr0 hr365
  rcases lt_trichotomy (monthOfYearDayC r) m with h | h | h
  · have := tableC_disjoint (monthOfYearDayC r) m hk1 h h2
    omega
  · exact h
  · have := tableC_disjoint m (monthOfYearDayC r) h1 h hk2
    omega

theorem monthOfYearDayL_eq_of (r : ℤ) (m : ℕ) (h1 : 1 ≤ m) (h2 : m ≤ 12)
    (hlo : (daysBeforeMonthL m : ℤ) ≤ r)
    (hhi : r < (daysBeforeMonthL m : ℤ) + monthLenL m) :
    monthOfYearDayL r = m := by
  have hr0 : 0 ≤ r := by
    have : (0 : ℤ) ≤ (daysBeforeMonthL m : ℤ) := Int.natCast_nonneg _
    omega
  have hr366 : r < 366 := by
    have := tableL_le m h1 h2
    omega
  obtain ⟨hk1, hk2, hk3, hk4⟩ := monthOfYearDayL_mem r hr0 hr366
  rcases lt_trichotomy (monthOfYearDayL r) m with h | h | h
  · have := tableL_disjoint (monthOfYearDayL r) m hk1 h h2
    omega
  · exact h
  · have := tableL_disjoint m (monthOfYearDayL r) h1 h hk2
    omega

theorem dby_step_false (Y : ℤ) (h : isLeapYear (Y - 10000) = false) :
    dby (Y + 1) = dby Y + 365 := by
  have hst := dby_step Y
  rw [h] at hst
  simpa using hst

theorem dby_step_true (Y : ℤ) (h : isLeapYear (Y - 10000) = true) :
    dby (Y + 1) = dby Y + 366 := by
  have hst := dby_step Y
  rw [h] at hst
  simpa using hst

theorem fromN_toN (d : Date) (h : validDate d) : fromN (toN d) = d := by
  obtain ⟨hy1, hy2, hm1, hm2, hd1, hd2⟩ := h
  have hshift : d.year + 10000 - 10000 = d.year := by ring
  rcases hl : isLeapYear d.year with _ | _
  · rw [daysInMonth, hl, monthLen_false] at hd2
    have hn : toN d = dby (d.year + 10000) + ((daysBeforeMonthC d.month : ℤ) + d.day - 1) := by
      unfold toN
      rw [hl, daysBeforeMonth_false]
      ring
    have hcast : (0 : ℤ) ≤ (daysBeforeMonthC d.month : ℤ) := Int.natCast_nonneg _
    have htab := tableC_le d.month hm1 hm2
    have hstep := dby_step_false (d.year + 10000) (by rw [hshift]; exact hl)
    have hYof : yearOf (toN d) = d.year + 10000 := by
      apply yearOf_eq
      · rw [hn]
        omega
      · rw [hn, hstep]
        omega
    unfold fromN
    rw [hYof, hshift, hl, monthOfYearDay_false, daysBeforeMonth_false]
    have hrr : toN d - dby (d.year + 10000) = (daysBeforeMonthC d.month : ℤ) + d.day - 1 := by
      rw [hn]
      ring
    rw [hrr]
    rw [monthOfYearDayC_eq_of _ d.month hm1 hm2 (by omega) (by omega)]
    rcases d with ⟨dy, dm, dd⟩
    simp only [Date.mk.injEq]
    refine ⟨trivial, trivial, ?_⟩
    simp only at hd1 hcast
    omega
  · rw [daysInMonth, hl, monthLen_true] at hd2
    have hn : toN d = dby (d.year + 10000) + ((daysBeforeMonthL d.month : ℤ) + d.day - 1) := by
      unfold toN
      rw [hl, daysBeforeMonth_true]
      ring
    have hcast : (0 : ℤ) ≤ (daysBeforeMonthL d.month : ℤ) := Int.natCast_nonneg _
    have htab := tableL_le d.month hm1 hm2
    have hstep := dby_step_true (d.year + 10000) (by rw [hshift]; exact hl)
    have hYof : yearOf (toN d) = d.year + 10000 := by
      apply yearOf_eq
      · rw [hn]
        omega
      · rw [hn, hstep]
        omega
    unfold fromN
    rw [hYof, hshift, hl, monthOfYearDay_true, daysBeforeMonth_true]
    have hrr : toN d - dby (d.year + 10000) = (daysBeforeMonthL d.month : ℤ) + d.day - 1 := by
      rw [hn]
      ring
    rw [hrr]
    rw [monthOfYearDayL_eq_of _ d.month hm1 hm2 (by omega) (by omega)]
    rcases d with ⟨dy, dm, dd⟩
    simp only [Date.mk.injEq]
    refine ⟨trivial, trivial, ?_⟩
    simp only at hd1 hcast
    omega

theorem toN_fromN (n : ℤ) (h1 : minN ≤ n) (h2 : n ≤ maxN) :
    validDate (fromN n) ∧ toN (fromN n) = n := by
  have hs := yearOf_spec n
  have hminN : minN = 366 := by decide
  have hmaxN : maxN = dby 19999 + 364 := by decide
  have hdby1 : dby 1 = 366 := by decide
  have hdby20000 : dby 20000 = dby 19999 + 365 := by decide
  have hY1 : 1 ≤ yearOf n := by
    by_contra hc
    have hle := dby_mono (yearOf n + 1) 1 (by omega)
    omega
  have hY2 : yearOf n ≤ 19999 := by
    by_contra hc
    have hle := dby_mono 20000 (yearOf n) (by omega)
    omega
  have hback : yearOf n - 10000 + 10000 = yearOf n := by ring
  rcases hl : isLeapYear (yearOf n - 10000) with _ | _
  · have hstep := dby_step_false (yearOf n) hl
    obtain ⟨hk1, hk2, hk3, hk4⟩ :=
      monthOfYearDayC_mem (n - dby (yearOf n)) (by omega) (by omega)
    constructor
    · unfold fromN validDate
      dsimp only
      rw [hl, monthOfYearDay_false, daysBeforeMonth_false, daysInMonth, hl, monthLen_false]
      refine ⟨by omega, by omega, hk1, hk2, by omega, by omega⟩
    · unfold toN fromN
      dsimp only
      rw [hl, monthOfYearDay_false, daysBeforeMonth_false, hback]
      omega
  · have hstep := dby_step_true (yearOf n) hl
    obtain ⟨hk1, hk2, hk3, hk4⟩ :=
      monthOfYearDayL_mem (n - dby (yearOf n)) (by omega) (by omega)
    constructor
    · unfold fromN validDate
      dsimp only
      rw [hl, monthOfYearDay_true, daysBeforeMonth_true, daysInMonth, hl, monthLen_true]
      refine ⟨by omega, by omega, hk1, hk2, by omega, by omega⟩
    · unfold toN fromN
      dsimp only
      rw [hl, monthOfYearDay_true, daysBeforeMonth_true, hback]
      omega

theorem minN_eq : minN = 366 := by decide

theorem maxN_eq : maxN = 7304849 := by decide

theorem toN_bounds (d : Date) (h : validDate d) : minN ≤ toN d ∧ toN d ≤ maxN := by
  obtain ⟨hy1, hy2, hm1, hm2, hd1, hd2⟩ := h
  have hmaxN : maxN = dby 19999 + 364 := by decide
  have hdby1 : dby 1 = 366 := by decide
  have hmono1 := dby_mono 1 (d.year + 10000) (by omega)
  have hshift : d.year + 10000 - 10000 = d.year := by ring
  rcases hl : isLeapYear d.year with _ | _
  · rw [daysInMonth, hl, monthLen_false] at hd2
    have htab := tableC_le d.month hm1 hm2
    have hcast : (0 : ℤ) ≤ (daysBeforeMonthC d.month : ℤ) := Int.natCast_nonneg _
    have hn : toN d = dby (d.year + 10000) + ((daysBeforeMonthC d.month : ℤ) + d.day - 1) := by
      unfold toN
      rw [hl, daysBeforeMonth_false]
      ring
    have hmono2 := dby_mono (d.year + 10000) 19999 (by omega)
    rw [minN_eq, hn]
    constructor
    · omega
    · omega
  · rw [daysInMonth, hl, monthLen_true] at hd2
    have htab := tableL_le d.month hm1 hm2
    have hcast : (0 : ℤ) ≤ (daysBeforeMonthL d.month : ℤ) := Int.natCast_nonneg _
    have hn : toN d = dby (d.year + 10000) + ((daysBeforeMonthL d.month : ℤ) + d.day - 1) := by
      unfold toN
      rw [hl, daysBeforeMonth_true]
      ring
    rw [minN_eq, hn]
    constructor
    · omega
    · have h9999 : isLeapYear 9999 = false := by decide
      by_cases hY : d.year = 9999
      · rw [hY, h9999] at hl
        exact absurd hl (by simp)
      · have hstep := dby_step_true (d.year + 10000) (by rw [hshift]; exact hl)
        have hmono2 := dby_mono (d.year + 10000 + 1) 19999 (by omega)
        omega

/-- Nanoseconds per day. -/
def nsPerDay : ℤ := 86400000000000

/-- The model of `time::OffsetDateTime` (represented as in `time` 0.3 by local
date, local time of day, and UTC offset): the date, the time of day in
nanoseconds since midnight, and the UTC offset in seconds.  The offset is only
carried around, never inspected. -/
structure OffsetDateTime where
  date : Date
  timeNanos : ℤ
  offset : ℤ
deriving DecidableEq

/-- Invariant of `time::OffsetDateTime`: valid date, time of day inside the
day. -/
def validODT (p : OffsetDateTime) : Prop :=
  validDate p.date ∧ 0 ≤ p.timeNanos ∧ p.timeNanos < nsPerDay

instance (p : OffsetDateTime) : Decidable (validODT p) := by
  unfold validODT
  infer_instance

/-- Total nanosecond position of `PrimitiveDateTime::MIN` (midnight of
`Date::MIN`). -/
def minT : ℤ := minN * nsPerDay

/-- Total nanosecond position of `PrimitiveDateTime::MAX`
(23:59:59.999999999 of `Date::MAX`). -/
def maxT : ℤ := maxN * nsPerDay + (nsPerDay - 1)

/-- Model of `OffsetDateTime::saturating_add` for a sub-day `time::Duration`
of `delta` nanoseconds: add on the nanosecond time line, clamp to
`PrimitiveDateTime::MIN`/`MAX` keeping the offset (`time` 0.3 semantics). -/
def odtSatAdd (p : OffsetDateTime) (delta : ℤ) : OffsetDateTime :=
  if toN p.date * nsPerDay + p.timeNanos + delta < minT then ⟨dateMin, 0, p.offset⟩
  else if maxT < toN p.date * nsPerDay + p.timeNanos + delta then
    ⟨dateMax, nsPerDay - 1, p.offset⟩
  else
    ⟨fromN ((toN p.date * nsPerDay + p.timeNanos + delta) / nsPerDay),
      (toN p.date * nsPerDay + p.timeNanos + delta) % nsPerDay, p.offset⟩

/-- Model of `Date::saturating_add` applied to `time::Duration` of `secs`
seconds (as built by `time::Duration::days`): whole days are extracted by the
truncating division of the `time` crate, added on the day-number line, and the
result is clamped to `Date::MIN`/`Date::MAX`. -/
def dateSatAddDays (c : Date) (secs : ℤ) : Date :=
  if toN c + secs.tdiv 86400 < minN then dateMin
  else if maxN < toN c + secs.tdiv 86400 then dateMax
  else fromN (toN c + secs.tdiv 86400)

theorem dateMin_valid : validDate dateMin := by decide

theorem dateMax_valid : validDate dateMax := by decide

theorem toN_dateMin : toN dateMin = minN := rfl

theorem toN_dateMax : toN dateMax = maxN := rfl

theorem dateSatAddDays_spec (c : Date) (s : ℤ) (h : validDate c) :
    validDate (dateSatAddDays c s) ∧
      toN (dateSatAddDays c s) = max minN (min (toN c + s.tdiv 86400) maxN) := by
  have hb := toN_bounds c h
  have hminmax : minN ≤ maxN := by
    rw [minN_eq, maxN_eq]
    omega
  unfold dateSatAddDays
  split_ifs with h1 h2
  · rw [toN_dateMin]
    exact ⟨dateMin_valid, by omega⟩
  · rw [toN_dateMax]
    exact ⟨dateMax_valid, by omega⟩
  · obtain ⟨hv, he⟩ := toN_fromN (toN c + s.tdiv 86400) (by omega) (by omega)
    exact ⟨hv, by omega⟩

theorem dateSatAddDays_zero (c : Date) (h : validDate c) : dateSatAddDays c 0 = c := by
  have hb := toN_bounds c h
  unfold dateSatAddDays
  rw [Int.zero_tdiv, add_zero]
  rw [if_neg (by omega), if_neg (by omega)]
  exact fromN_toN c h

theorem odtSatAdd_offset (p : OffsetDateTime) (delta : ℤ) :
    (odtSatAdd p delta).offset = p.offset := by
  unfold odtSatAdd
  split_ifs <;> rfl

theorem minT_eq : minT = 31622400000000000 := by decide

theorem maxT_eq : maxT = 631139039999999999999 := by decide

theorem odtSatAdd_valid (p : OffsetDateTime) (delta : ℤ) :
    validODT (odtSatAdd p delta) := by
  have hns : nsPerDay = 86400000000000 := rfl
  unfold odtSatAdd
  split_ifs with h1 h2
  · unfold validODT
    dsimp only
    exact ⟨dateMin_valid, by omega, by rw [hns]; omega⟩
  · unfold validODT
    dsimp only
    exact ⟨dateMax_valid, by rw [hns]; omega, by rw [hns]; omega⟩
  · rw [minT_eq, hns] at h1
    rw [maxT_eq, hns] at h2
    obtain ⟨hv, he⟩ :=
      toN_fromN ((toN p.date * nsPerDay + p.timeNanos + delta) / nsPerDay)
        (by rw [minN_eq, hns]; omega) (by rw [maxN_eq, hns]; omega)
    unfold validODT
    dsimp only
    exact ⟨hv, by rw [hns]; omega, by rw [hns]; omega⟩

theorem odtSatAdd_zero (p : OffsetDateTime) (h : validODT p) : odtSatAdd p 0 = p := by
  obtain ⟨hd, ht1, ht2⟩ := h
  obtain ⟨hbl, hbu⟩ := toN_bounds p.date hd
  have hns : nsPerDay = 86400000000000 := rfl
  rw [minN_eq] at hbl
  rw [maxN_eq] at hbu
  rw [hns] at ht2
  unfold odtSatAdd
  rw [add_zero]
  rw [if_neg (by rw [minT_eq, hns]; omega), if_neg (by rw [maxT_eq, hns]; omega)]
  have hq : (toN p.date * nsPerDay + p.timeNanos) / nsPerDay = toN p.date := by
    rw [hns]
    omega
  have hr : (toN p.date * nsPerDay + p.timeNanos) % nsPerDay = p.timeNanos := by
    rw [hns]
    omega
  rw [hq, hr, fromN_toN p.date hd]

/-- The `Duration` struct of the iso8601-duration crate (declared in the crate
root, outside `src/`): six `f32` magnitude fields, modelled as exact
rationals. -/
structure Duration where
  year : ℚ
  month : ℚ
  day : ℚ
  hour : ℚ
  minute : ℚ
  second : ℚ

/-- `let month_0_based = month_u8 as u32 - 1;` (u32 wrap-around subtraction;
`month_u8` is 1-based, so no wrap occurs on valid input). -/
def month0 (p : OffsetDateTime) : ℕ := (p.date.month + 4294967296 - 1) % 4294967296

/-- `let total_months_0_based = month_0_based + rhs.month as u32;`
(u32 wrap-around addition). -/
def totalMonths0 (p : OffsetDateTime) (rhs : Duration) : ℕ :=
  (month0 p + f2u32 rhs.month) % 4294967296

/-- `let new_year = year + rhs.year as i32 + (total_months_0_based / 12) as i32;`
(i32 wrap-around addition; a chain of wrapping additions equals one final
wrap). -/
def newYearOf (p : OffsetDateTime) (rhs : Duration) : ℤ :=
  wrapI32 (p.date.year + f2i32 rhs.year + u32AsI32 (totalMonths0 p rhs / 12))

/-- `let new_month_u8 = (total_months_0_based % 12 + 1) as u8;` (the value is
in 1..=12, so the u8 cast is the identity). -/
def newMonthOf (p : OffsetDateTime) (rhs : Duration) : ℕ := totalMonths0 p rhs % 12 + 1

/-- `if day > max_day_in_month { day = max_day_in_month; }` -/
def clampedDayOf (p : OffsetDateTime) (rhs : Duration) : ℕ :=
  if daysInMonth (newYearOf p rhs) (newMonthOf p rhs) < p.date.day then
    daysInMonth (newYearOf p rhs) (newMonthOf p rhs)
  else p.date.day

/-- The `Month::try_from(new_month_u8)` guard followed by
`Date::from_calendar_date(new_year, new_month, day)`: `none` models the two
`Err(_) => return self` fallback branches. -/
def clampedDate (p : OffsetDateTime) (rhs : Duration) : Option Date :=
  if 1 ≤ newMonthOf p rhs ∧ newMonthOf p rhs ≤ 12 then
    (if -9999 ≤ newYearOf p rhs ∧ newYearOf p rhs ≤ 9999 ∧ 1 ≤ clampedDayOf p rhs ∧
        clampedDayOf p rhs ≤ daysInMonth (newYearOf p rhs) (newMonthOf p rhs) then
      some ⟨newYearOf p rhs, newMonthOf p rhs, clampedDayOf p rhs⟩
    else none)
  else none

/-- Seconds of `time::Duration::days(rhs.day as i64)`: the i64 multiplication
by 86400 wraps in the release profile. -/
def daysDurationSecs (rhs : Duration) : ℤ := wrapI64 (f2i64 rhs.day * 86400)

/-- Seconds of `time::Duration::hours(rhs.hour as i64)` (wrapping `* 3600`). -/
def hoursSecs (rhs : Duration) : ℤ := wrapI64 (f2i64 rhs.hour * 3600)

/-- Seconds of `time::Duration::minutes(rhs.minute as i64)` (wrapping `* 60`). -/
def minutesSecs (rhs : Duration) : ℤ := wrapI64 (f2i64 rhs.minute * 60)

/-- Nanosecond part of `time::Duration::seconds_f32(rhs.second)`:
`((seconds % 1.) * 1e9) as i32`.  The float remainder `seconds % 1.` is the
exact fractional part with the sign of `seconds`; for a rational `n/d` (with
`d > 0`) that part is `(n tmod d) / d`, so the truncated product is
`((n tmod d) * 10^9) tdiv d`.  The final product is modelled exactly. -/
def secondsNanosOf (rhs : Duration) : ℤ :=
  Int.tdiv (Int.tmod rhs.second.num rhs.second.den * 1000000000) rhs.second.den

/-- Seconds of `Duration::hours(..) + Duration::minutes(..) +
Duration::seconds_f32(..)`: each `+` on `time::Duration` is a `checked_add`
followed by `expect`, so an i64 overflow in either addition panics; the panic
is modelled as `none`.  The nanosecond parts (0, 0, and a value of magnitude
below 10^9) never carry into the seconds. -/
def subDaySecs (rhs : Duration) : Option ℤ :=
  if -9223372036854775808 ≤ hoursSecs rhs + minutesSecs rhs ∧
      hoursSecs rhs + minutesSecs rhs ≤ 9223372036854775807 then
    (if -9223372036854775808 ≤ hoursSecs rhs + minutesSecs rhs + f2i64 rhs.second ∧
        hoursSecs rhs + minutesSecs rhs + f2i64 rhs.second ≤ 9223372036854775807 then
      some (hoursSecs rhs + minutesSecs rhs + f2i64 rhs.second)
    else none)
  else none

/-- The `impl Add<Duration> for OffsetDateTime` of `src/time_03.rs`:
year/month addition with month-end clamping (with the `return self` fallbacks
when date construction fails), then saturating day addition, then saturating
time-of-day addition of the reassembled point.  `none` models the panic of
`time::Duration` addition on i64 overflow (release profile); every non-panic
path yields `some`. -/
def add (p : OffsetDateTime) (rhs : Duration) : Option OffsetDateTime :=
  match clampedDate p rhs with
  | none => some p
  | some c =>
    match subDaySecs rhs with
    | none => none
    | some s =>
      some (odtSatAdd ⟨dateSatAddDays c (daysDurationSecs rhs), p.timeNanos, p.offset⟩
        (s * 1000000000 + secondsNanosOf rhs))

theorem ratTrunc_intCast (z : ℤ) : ratTrunc ((z : ℚ)) = z := by
  unfold ratTrunc
  rcases le_or_lt 0 z with h | h
  · rw [if_pos (by exact_mod_cast h)]
    exact Int.floor_intCast z
  · rw [if_neg (not_le.mpr (by exact_mod_cast h))]
    exact Int.ceil_intCast z

theorem ratTrunc_natCast (m : ℕ) : ratTrunc ((m : ℚ)) = m := by
  have h := ratTrunc_intCast (m : ℤ)
  rwa [Int.cast_natCast] at h

theorem ratTrunc_zero : ratTrunc 0 = 0 := by
  have h := ratTrunc_intCast 0
  rwa [Int.cast_zero] at h

theorem ratTrunc_nonpos (q : ℚ) (h : q ≤ 0) : ratTrunc q ≤ 0 := by
  unfold ratTrunc
  split_ifs with h0
  · have : q = 0 := le_antisymm h h0
    rw [this]
    simp
  · rw [Int.ceil_le]
    exact_mod_cast h

theorem f2u32_natCast (m : ℕ) : f2u32 ((m : ℚ)) = min m 4294967295 := by
  unfold f2u32
  rw [ratTrunc_natCast]
  omega

theorem f2u32_nonpos (q : ℚ) (h : q ≤ 0) : f2u32 q = 0 := by
  unfold f2u32
  have := ratTrunc_nonpos q h
  omega

theorem f2i32_intCast (z : ℤ) (h1 : -2147483648 ≤ z) (h2 : z ≤ 2147483647) :
    f2i32 ((z : ℚ)) = z := by
  unfold f2i32
  rw [ratTrunc_intCast]
  omega

theorem f2i32_natCast (m : ℕ) (h : m ≤ 2147483647) : f2i32 ((m : ℚ)) = m := by
  unfold f2i32
  rw [ratTrunc_natCast]
  omega

theorem f2i64_intCast (z : ℤ) (h1 : -9223372036854775808 ≤ z)
    (h2 : z ≤ 9223372036854775807) : f2i64 ((z : ℚ)) = z := by
  unfold f2i64
  rw [ratTrunc_intCast]
  omega

theorem f2i64_natCast (m : ℕ) (h : m ≤ 9223372036854775807) : f2i64 ((m : ℚ)) = m := by
  unfold f2i64
  rw [ratTrunc_natCast]
  omega

theorem wrapI32_eq (n : ℤ) (h1 : -2147483648 ≤ n) (h2 : n ≤ 2147483647) : wrapI32 n = n := by
  unfold wrapI32
  omega

theorem wrapI64_eq (n : ℤ) (h1 : -9223372036854775808 ≤ n)
    (h2 : n ≤ 9223372036854775807) : wrapI64 n = n := by
  unfold wrapI64
  omega

theorem u32AsI32_eq (n : ℕ) (h : n < 2147483648) : u32AsI32 n = n := by
  unfold u32AsI32
  rw [if_pos h]

theorem newMonthOf_bounds (p : OffsetDateTime) (rhs : Duration) :
    1 ≤ newMonthOf p rhs ∧ newMonthOf p rhs ≤ 12 := by
  unfold newMonthOf
  omega

theorem daysInMonth_ge (y : ℤ) (m : ℕ) (h1 : 1 ≤ m) (h2 : m ≤ 12) :
    28 ≤ daysInMonth y m := by
  unfold daysInMonth monthLen
  rcases isLeapYear y with _ | _
  · simp only [Bool.false_eq_true, if_false]
    interval_cases m <;> decide
  · simp only [if_true]
    interval_cases m <;> decide

theorem clampedDayOf_bounds (p : OffsetDateTime) (rhs : Duration) (hp : 1 ≤ p.date.day) :
    1 ≤ clampedDayOf p rhs ∧
      clampedDayOf p rhs ≤ daysInMonth (newYearOf p rhs) (newMonthOf p rhs) := by
  have hm := newMonthOf_bounds p rhs
  have h28 := daysInMonth_ge (newYearOf p rhs) (newMonthOf p rhs) hm.1 hm.2
  unfold clampedDayOf
  split_ifs with h
  · omega
  · omega

theorem clampedDate_some (p : OffsetDateTime) (rhs : Duration) (hp : 1 ≤ p.date.day)
    (hy1 : -9999 ≤ newYearOf p rhs) (hy2 : newYearOf p rhs ≤ 9999) :
    clampedDate p rhs =
      some ⟨newYearOf p rhs, newMonthOf p rhs, clampedDayOf p rhs⟩ := by
  have hm := newMonthOf_bounds p rhs
  have hd := clampedDayOf_bounds p rhs hp
  unfold clampedDate
  rw [if_pos hm, if_pos ⟨hy1, hy2, hd.1, hd.2⟩]

theorem clampedDate_none (p : OffsetDateTime) (rhs : Duration)
    (hy : newYearOf p rhs < -9999 ∨ 9999 < newYearOf p rhs) :
    clampedDate p rhs = none := by
  have hm := newMonthOf_bounds p rhs
  unfold clampedDate
  rw [if_pos hm, if_neg (by intro hc; omega)]

theorem clampedDate_valid (p : OffsetDateTime) (rhs : Duration) (c : Date)
    (hc : clampedDate p rhs = some c) :
    validDate c ∧ c = ⟨newYearOf p rhs, newMonthOf p rhs, clampedDayOf p rhs⟩ := by
  have hm := newMonthOf_bounds p rhs
  unfold clampedDate at hc
  rw [if_pos hm] at hc
  split_ifs at hc with hg
  · injection hc with hcc
    refine ⟨?_, hcc.symm⟩
    rw [← hcc]
    exact ⟨hg.1, hg.2.1, hm.1, hm.2, hg.2.2.1, hg.2.2.2⟩

theorem add_of_none (p : OffsetDateTime) (rhs : Duration)
    (hc : clampedDate p rhs = none) : add p rhs = some p := by
  unfold add
  rw [hc]

theorem add_of_some (p : OffsetDateTime) (rhs : Duration) (c : Date) (s : ℤ)
    (hc : clampedDate p rhs = some c) (hs : subDaySecs rhs = some s) :
    add p rhs =
      some (odtSatAdd ⟨dateSatAddDays c (daysDurationSecs rhs), p.timeNanos, p.offset⟩
        (s * 1000000000 + secondsNanosOf rhs)) := by
  unfold add
  rw [hc, hs]

theorem add_of_panic (p : OffsetDateTime) (rhs : Duration) (c : Date)
    (hc : clampedDate p rhs = some c) (hs : subDaySecs rhs = none) :
    add p rhs = none := by
  unfold add
  rw [hc, hs]

theorem f2u32_zero : f2u32 0 = 0 := by
  unfold f2u32
  rw [ratTrunc_zero]
  decide

theorem f2i32_zero : f2i32 0 = 0 := by
  unfold f2i32
  rw [ratTrunc_zero]
  decide

theorem f2i64_zero : f2i64 0 = 0 := by
  unfold f2i64
  rw [ratTrunc_zero]
  decide

theorem wrapI64_zero : wrapI64 0 = 0 := by
  unfold wrapI64
  decide

theorem subDaySecs_zeros (rhs : Duration) (hh : rhs.hour = 0) (hm : rhs.minute = 0)
    (hs : rhs.second = 0) : subDaySecs rhs = some 0 ∧ secondsNanosOf rhs = 0 := by
  have h1 : hoursSecs rhs = 0 := by
    unfold hoursSecs
    rw [hh, f2i64_zero, zero_mul, wrapI64_zero]
  have h2 : minutesSecs rhs = 0 := by
    unfold minutesSecs
    rw [hm, f2i64_zero, zero_mul, wrapI64_zero]
  have h3 : secondsNanosOf rhs = 0 := by
    unfold secondsNanosOf
    rw [hs]
    decide
  refine ⟨?_, h3⟩
  unfold subDaySecs
  rw [h1, h2, hs, f2i64_zero]
  norm_num

theorem daysDurationSecs_zero (rhs : Duration) (hd : rhs.day = 0) :
    daysDurationSecs rhs = 0 := by
  unfold daysDurationSecs
  rw [hd, f2i64_zero, zero_mul, wrapI64_zero]

theorem clampedDate_zero_ym (p : OffsetDateTime) (rhs : Duration) (hd : validDate p.date)
    (h1 : rhs.year = 0) (h2 : rhs.month = 0) : clampedDate p rhs = some p.date := by
  obtain ⟨hy1, hy2, hm1, hm2, hd1, hd2⟩ := hd
  have htot : totalMonths0 p rhs = p.date.month - 1 := by
    unfold totalMonths0 month0
    rw [h2, f2u32_zero]
    omega
  have hyear : newYearOf p rhs = p.date.year := by
    unfold newYearOf u32AsI32 wrapI32
    rw [h1, f2i32_zero, htot]
    split_ifs with hsp
    · omega
    · omega
  have hmon : newMonthOf p rhs = p.date.month := by
    unfold newMonthOf
    rw [htot]
    omega
  have hday : clampedDayOf p rhs = p.date.day := by
    unfold clampedDayOf
    rw [hyear, hmon]
    rw [if_neg (by omega)]
  rw [clampedDate_some p rhs (by omega) (by rw [hyear]; omega) (by rw [hyear]; omega)]
  rw [hyear, hmon, hday]

theorem add_zero_eq (p : OffsetDateTime) (h : validODT p) :
    add p ⟨0, 0, 0, 0, 0, 0⟩ = some p := by
  obtain ⟨hdv, ht1, ht2⟩ := h
  have hcd := clampedDate_zero_ym p ⟨0, 0, 0, 0, 0, 0⟩ hdv rfl rfl
  obtain ⟨hsub, hnan⟩ := subDaySecs_zeros ⟨0, 0, 0, 0, 0, 0⟩ rfl rfl rfl
  rw [add_of_some p _ p.date 0 hcd hsub]
  rw [daysDurationSecs_zero _ rfl]
  rw [dateSatAddDays_zero p.date hdv]
  rw [hnan]
  have hz : (0 : ℤ) * 1000000000 + 0 = 0 := by norm_num
  rw [hz]
  exact congrArg some (odtSatAdd_zero p ⟨hdv, ht1, ht2⟩)

/-- 2023-01-31 10:00:00 UTC, the starting point of the month-end clamping test
of `src/time_03.rs`. -/
def pJan31 : OffsetDateTime := ⟨⟨2023, 1, 31⟩, 36000000000000, 0⟩

/-- 2023-01-30 10:00:00 UTC. -/
def pJan30 : OffsetDateTime := ⟨⟨2023, 1, 30⟩, 36000000000000, 0⟩

/-- 2023-03-15 10:00:00 UTC. -/
def pMar15 : OffsetDateTime := ⟨⟨2023, 3, 15⟩, 36000000000000, 0⟩

/-- 9999-01-15 10:00:00 UTC, a valid point close to the upper end of the
representable year range. -/
def pMaxYear : OffsetDateTime := ⟨⟨9999, 1, 15⟩, 36000000000000, 0⟩

/-- 2023-03-15 10:00:00 at offset +01:00 (3600 seconds). -/
def pOff : OffsetDateTime := ⟨⟨2023, 3, 15⟩, 36000000000000, 3600⟩

/-- C4: whenever the construction of the intermediate clamped date fails
(either the `Month::try_from` guard or `Date::from_calendar_date`, both
modelled by `clampedDate _ _ = none`), `add` returns the original input point
completely unchanged and surfaces no error. -/
theorem c4_construction_fallback (p : OffsetDateTime) (rhs : Duration)
    (h : clampedDate p rhs = none) : add p rhs = some p :=
  add_of_none p rhs h

theorem c4_construction_fallback_witness :
    add pMaxYear ⟨((1 : ℕ) : ℚ), 0, 0, 0, 0, 0⟩ = some pMaxYear :=
  c4_construction_fallback pMaxYear ⟨((1 : ℕ) : ℚ), 0, 0, 0, 0, 0⟩ (by decide)

/-- C5 counterexample: the construction-failure fallback is reachable.  At the
valid point 9999-01-15 with the non-negative whole-number duration
`{year: 1}`, the computed year 10000 lies outside the representable range, so
`Date::from_calendar_date` fails and the fallback branch runs, contradicting
the claim that the fallback is unreachable for every valid point and
non-negative whole-number year/month fields. -/
theorem c5_counterexample :
    validODT pMaxYear ∧ clampedDate pMaxYear ⟨((1 : ℕ) : ℚ), 0, 0, 0, 0, 0⟩ = none := by
  decide

/-- C5 (amended): for every valid input point, the `Month::try_from` fallback
is indeed unreachable (the computed month is always in 1..=12), and the
`Date::from_calendar_date` fallback is reachable exactly when the computed
year falls outside the representable range -9999..=9999: inside that range
the clamped date is always constructible. -/
theorem c5_fallback_reachability (p : OffsetDateTime) (rhs : Duration)
    (h : validDate p.date) :
    (1 ≤ newMonthOf p rhs ∧ newMonthOf p rhs ≤ 12) ∧
      (-9999 ≤ newYearOf p rhs ∧ newYearOf p rhs ≤ 9999 →
        clampedDate p rhs =
          some ⟨newYearOf p rhs, newMonthOf p rhs, clampedDayOf p rhs⟩) ∧
      (newYearOf p rhs < -9999 ∨ 9999 < newYearOf p rhs →
        clampedDate p rhs = none) := by
  obtain ⟨h1, h2, h3, h4, h5, h6⟩ := h
  exact ⟨newMonthOf_bounds p rhs,
    fun hy => clampedDate_some p rhs (by omega) hy.1 hy.2,
    fun hy => clampedDate_none p rhs hy⟩

theorem c5_fallback_reachability_witness :
    (1 ≤ newMonthOf pMaxYear ⟨0, 0, 0, 0, 0, 0⟩ ∧
        newMonthOf pMaxYear ⟨0, 0, 0, 0, 0, 0⟩ ≤ 12) ∧
      (-9999 ≤ newYearOf pMaxYear ⟨0, 0, 0, 0, 0, 0⟩ ∧
          newYearOf pMaxYear ⟨0, 0, 0, 0, 0, 0⟩ ≤ 9999 →
        clampedDate pMaxYear ⟨0, 0, 0, 0, 0, 0⟩ =
          some ⟨newYearOf pMaxYear ⟨0, 0, 0, 0, 0, 0⟩,
            newMonthOf pMaxYear ⟨0, 0, 0, 0, 0, 0⟩,
            clampedDayOf pMaxYear ⟨0, 0, 0, 0, 0, 0⟩⟩) ∧
      (newYearOf pMaxYear ⟨0, 0, 0, 0, 0, 0⟩ < -9999 ∨
          9999 < newYearOf pMaxYear ⟨0, 0, 0, 0, 0, 0⟩ →
        clampedDate pMaxYear ⟨0, 0, 0, 0, 0, 0⟩ = none) :=
  c5_fallback_reachability pMaxYear ⟨0, 0, 0, 0, 0, 0⟩ (by decide)

/-- C7: adding the all-zero duration to any valid calendar point returns the
point unchanged. -/
theorem c7_zero_identity (p : OffsetDateTime) (h : validODT p) :
    add p ⟨0, 0, 0, 0, 0, 0⟩ = some p :=
  add_zero_eq p h

theorem c7_zero_identity_witness : add pMar15 ⟨0, 0, 0, 0, 0, 0⟩ = some pMar15 :=
  c7_zero_identity pMar15 (by decide)

/-- C8: on every path of `add` that produces a result, the UTC offset of the
result equals the UTC offset of the input: the fallback returns the input
itself, and the final stage reassembles the point with `self.offset()` which
`saturating_add` carries through unchanged. -/
theorem c8_offset_preserved (p : OffsetDateTime) (rhs : Duration) (q : OffsetDateTime)
    (h : add p rhs = some q) : q.offset = p.offset := by
  unfold add at h
  split at h
  · injection h with hpq
    rw [← hpq]
  · split at h
    · exact absurd h (by simp)
    · injection h with hq
      rw [← hq, odtSatAdd_offset]

theorem c8_offset_preserved_witness :
    (⟨⟨2024, 4, 16⟩, 39661000000000, 3600⟩ : OffsetDateTime).offset = pOff.offset :=
  c8_offset_preserved pOff ⟨1, 1, 1, 1, 1, 1⟩ ⟨⟨2024, 4, 16⟩, 39661000000000, 3600⟩
    (by decide)

/-- C1 counterexample: the year/month formula fails for the non-negative
whole-number month field 2^32 = 4294967296 (exactly representable in `f32`):
the saturating `as u32` cast turns it into 2^32 - 1, so starting from January
the code computes month 4, while the claimed formula
`M' = ((M - 1) + dm) mod 12 + 1` yields month 5. -/
theorem c1_counterexample :
    newMonthOf pJan31 ⟨0, (4294967296 : ℚ), 0, 0, 0, 0⟩ = 4 ∧
      ((pJan31.date.month : ℤ) - 1 + 4294967296) % 12 + 1 = 5 := by
  decide

/-- C1 (amended): the intermediate year and month satisfy
`Y' = Y + dy + floor(total / 12)` and `M' = (total mod 12) + 1` with
`total = (M - 1) + dm`, for non-negative whole-number fields, provided no
saturating cast or wrap-around is hit: `dm` fits in u32, `(M - 1) + dm`
does not wrap in u32, `dy` fits in i32 and the year sum stays within i32. -/
theorem c1_year_month_formula (p : OffsetDateTime) (dy m : ℕ)
    (hpv : validDate p.date)
    (hm : m ≤ 4294967295)
    (hnw : p.date.month - 1 + m ≤ 4294967295)
    (hdy : dy ≤ 2147483647)
    (hyr1 : -2147483648 ≤ p.date.year + (dy : ℤ) + (((p.date.month - 1 + m) / 12 : ℕ) : ℤ))
    (hyr2 : p.date.year + (dy : ℤ) + (((p.date.month - 1 + m) / 12 : ℕ) : ℤ) ≤ 2147483647) :
    newYearOf p ⟨(dy : ℚ), (m : ℚ), 0, 0, 0, 0⟩ =
        p.date.year + (dy : ℤ) + (((p.date.month - 1 + m) / 12 : ℕ) : ℤ) ∧
      newMonthOf p ⟨(dy : ℚ), (m : ℚ), 0, 0, 0, 0⟩ = (p.date.month - 1 + m) % 12 + 1 := by
  obtain ⟨hy1, hy2, hm1, hm2, hd1, hd2⟩ := hpv
  have htot : totalMonths0 p ⟨(dy : ℚ), (m : ℚ), 0, 0, 0, 0⟩ = p.date.month - 1 + m := by
    unfold totalMonths0 month0
    dsimp only
    rw [f2u32_natCast]
    omega
  constructor
  · unfold newYearOf
    dsimp only
    rw [f2i32_natCast dy hdy, htot]
    rw [u32AsI32_eq _ (by omega)]
    rw [wrapI32_eq _ (by omega) (by omega)]
  · unfold newMonthOf
    rw [htot]

theorem c1_year_month_formula_witness :
    newYearOf pJan31 ⟨((1 : ℕ) : ℚ), ((13 : ℕ) : ℚ), 0, 0, 0, 0⟩ =
        pJan31.date.year + ((1 : ℕ) : ℤ) +
          (((pJan31.date.month - 1 + 13) / 12 : ℕ) : ℤ) ∧
      newMonthOf pJan31 ⟨((1 : ℕ) : ℚ), ((13 : ℕ) : ℚ), 0, 0, 0, 0⟩ =
        (pJan31.date.month - 1 + 13) % 12 + 1 :=
  c1_year_month_formula pJan31 1 13 (by decide) (by decide) (by decide) (by decide)
    (by decide) (by decide)

/-- C2: for every valid calendar point and every non-negative whole-number
month delta `m`, adding the duration `{month: m}` yields a point whose day
equals `min(original day, daysInMonth(resultYear, resultMonth))`: out-of-range
days are clamped down, never rolled over.  This holds with no size bound on
`m`: if the u32 cast saturates or the month/year arithmetic wraps, the result
day is still the clamped day of the (wrapped) result month, and if the year
leaves the representable range the fallback returns the original point, whose
day is already valid for its own month. -/
theorem c2_month_end_clamp (p : OffsetDateTime) (m : ℕ) (h : validODT p) :
    ∃ q, add p ⟨0, (m : ℚ), 0, 0, 0, 0⟩ = some q ∧
      q.date.day = min p.date.day (daysInMonth q.date.year q.date.month) := by
  obtain ⟨hdv, ht1, ht2⟩ := h
  obtain ⟨hsub, hnan⟩ := subDaySecs_zeros ⟨0, (m : ℚ), 0, 0, 0, 0⟩ rfl rfl rfl
  cases hcd : clampedDate p ⟨0, (m : ℚ), 0, 0, 0, 0⟩ with
  | none =>
    refine ⟨p, add_of_none p _ hcd, ?_⟩
    obtain ⟨hy1, hy2, hm1, hm2, hd1, hd2⟩ := hdv
    omega
  | some c =>
    obtain ⟨hcv, hceq⟩ := clampedDate_valid p _ c hcd
    rw [add_of_some p _ c 0 hcd hsub]
    rw [daysDurationSecs_zero _ rfl]
    rw [dateSatAddDays_zero c hcv]
    rw [hnan]
    have hz : (0 : ℤ) * 1000000000 + 0 = 0 := by norm_num
    rw [hz]
    rw [odtSatAdd_zero ⟨c, p.timeNanos, p.offset⟩ ⟨hcv, ht1, ht2⟩]
    refine ⟨⟨c, p.timeNanos, p.offset⟩, rfl, ?_⟩
    dsimp only
    rw [hceq]
    dsimp only
    unfold clampedDayOf
    split_ifs with hsp
    · omega
    · omega

theorem c2_month_end_clamp_witness :
    ∃ q, add pJan31 ⟨0, ((1 : ℕ) : ℚ), 0, 0, 0, 0⟩ = some q ∧
      q.date.day = min pJan31.date.day (daysInMonth q.date.year q.date.month) :=
  c2_month_end_clamp pJan31 1 (by decide)

/-- C3 counterexample: day-addition overflow is not always saturated, because
`time::Duration::days(rhs.day as i64)` multiplies by 86400 with wrapping i64
arithmetic before the saturating add runs.  For the whole-number day field
2^60 (exactly representable in `f32`), `2^60 * 86400` is divisible by `2^64`,
so the computed day duration is zero: the ideal day addition overflows the
representable range, yet the result is the unchanged input instead of the
`Date::MAX` boundary. -/
theorem c3_counterexample :
    add pMar15 ⟨0, 0, (1152921504606846976 : ℚ), 0, 0, 0⟩ = some pMar15 ∧
      maxN < toN pMar15.date + 1152921504606846976 := by
  decide

/-- C3 (amended): provided the sub-day duration components do not overflow the
i64 seconds representation (`subDaySecs _ = some s`, i.e. the `time::Duration`
additions do not panic) and the day field scaled to seconds does not wrap in
i64, `add` never fails: it returns a result that is a valid representable
point with the input offset, and range overflow during day addition is
saturated, clamping the intermediate date to the `Date::MIN`/`Date::MAX`
boundary of the representable range. -/
theorem c3_saturating_total (p : OffsetDateTime) (rhs : Duration) (s : ℤ)
    (h : validODT p) (hs : subDaySecs rhs = some s)
    (hnw1 : -9223372036854775808 ≤ f2i64 rhs.day * 86400)
    (hnw2 : f2i64 rhs.day * 86400 ≤ 9223372036854775807) :
    (∃ q, add p rhs = some q ∧ validODT q ∧ q.offset = p.offset) ∧
      (∀ c, clampedDate p rhs = some c →
        (maxN < toN c + Int.tdiv (f2i64 rhs.day * 86400) 86400 →
          dateSatAddDays c (daysDurationSecs rhs) = dateMax) ∧
        (toN c + Int.tdiv (f2i64 rhs.day * 86400) 86400 < minN →
          dateSatAddDays c (daysDurationSecs rhs) = dateMin)) := by
  have hdd : daysDurationSecs rhs = f2i64 rhs.day * 86400 := by
    unfold daysDurationSecs
    exact wrapI64_eq _ hnw1 hnw2
  have hminmax : minN ≤ maxN := by
    rw [minN_eq, maxN_eq]
    omega
  constructor
  · cases hcd : clampedDate p rhs with
    | none =>
      exact ⟨p, add_of_none p rhs hcd, h, rfl⟩
    | some c =>
      refine ⟨_, add_of_some p rhs c s hcd hs, odtSatAdd_valid _ _, ?_⟩
      rw [odtSatAdd_offset]
  · intro c hcd
    rw [hdd]
    unfold dateSatAddDays
    constructor
    · intro hgt
      split_ifs with h1 h2
      all_goals first
      | rfl
      | (exfalso; omega)
    · intro hlt
      split_ifs with h1 h2
      all_goals first
      | rfl
      | (exfalso; omega)

theorem c3_saturating_total_witness :
    ∃ q, add pMar15 ⟨0, 0, ((10000000000 : ℕ) : ℚ), 0, 0, 0⟩ = some q ∧
      validODT q ∧ q.offset = pMar15.offset :=
  (c3_saturating_total pMar15 ⟨0, 0, ((10000000000 : ℕ) : ℚ), 0, 0, 0⟩ 0 (by decide)
    (by decide) (by decide) (by decide)).1

/-- C6: the three stages run in the documented order — year/month addition
with clamping first, then day addition (then time-of-day addition): adding a
duration `{month: m, day: d}` equals first adding `{month: m}` (where the
clamping happens) and then adding `{day: d}` to the result, whenever the
year/month stage constructs its date (the computed year stays in range).  The
closing conjunction shows on 2023-01-30 + {month: 1, day: 2} that the result
(March 2) differs from adding the day first and the month afterwards
(March 1): clamping is applied before day addition, not after. -/
theorem c6_stage_order (p : OffsetDateTime) (m d : ℕ) (h : validODT p)
    (hy1 : -9999 ≤ newYearOf p ⟨0, (m : ℚ), (d : ℚ), 0, 0, 0⟩)
    (hy2 : newYearOf p ⟨0, (m : ℚ), (d : ℚ), 0, 0, 0⟩ ≤ 9999) :
    (∃ q1 q2, add p ⟨0, (m : ℚ), 0, 0, 0, 0⟩ = some q1 ∧
      add q1 ⟨0, 0, (d : ℚ), 0, 0, 0⟩ = some q2 ∧
      add p ⟨0, (m : ℚ), (d : ℚ), 0, 0, 0⟩ = some q2) ∧
    (add pJan30 ⟨0, 1, 2, 0, 0, 0⟩ = some ⟨⟨2023, 3, 2⟩, 36000000000000, 0⟩ ∧
      add pJan30 ⟨0, 0, 2, 0, 0, 0⟩ = some ⟨⟨2023, 2, 1⟩, 36000000000000, 0⟩ ∧
      add (⟨⟨2023, 2, 1⟩, 36000000000000, 0⟩ : OffsetDateTime) ⟨0, 1, 0, 0, 0, 0⟩ =
        some ⟨⟨2023, 3, 1⟩, 36000000000000, 0⟩) := by
  obtain ⟨hdv, ht1, ht2⟩ := h
  have hday1 : 1 ≤ p.date.day := hdv.2.2.2.2.1
  have hz : (0 : ℤ) * 1000000000 + 0 = 0 := by norm_num
  have hcd_md : clampedDate p ⟨0, (m : ℚ), (d : ℚ), 0, 0, 0⟩ =
      some ⟨newYearOf p ⟨0, (m : ℚ), (d : ℚ), 0, 0, 0⟩,
        newMonthOf p ⟨0, (m : ℚ), (d : ℚ), 0, 0, 0⟩,
        clampedDayOf p ⟨0, (m : ℚ), (d : ℚ), 0, 0, 0⟩⟩ :=
    clampedDate_some p _ hday1 hy1 hy2
  obtain ⟨hCvalid, _⟩ := clampedDate_valid p _ _ hcd_md
  have hcd_m : clampedDate p ⟨0, (m : ℚ), 0, 0, 0, 0⟩ =
      some ⟨newYearOf p ⟨0, (m : ℚ), (d : ℚ), 0, 0, 0⟩,
        newMonthOf p ⟨0, (m : ℚ), (d : ℚ), 0, 0, 0⟩,
        clampedDayOf p ⟨0, (m : ℚ), (d : ℚ), 0, 0, 0⟩⟩ :=
    clampedDate_some p _ hday1 hy1 hy2
  obtain ⟨hsub_m, hnan_m⟩ := subDaySecs_zeros ⟨0, (m : ℚ), 0, 0, 0, 0⟩ rfl rfl rfl
  obtain ⟨hsub_d, hnan_d⟩ := subDaySecs_zeros ⟨0, 0, (d : ℚ), 0, 0, 0⟩ rfl rfl rfl
  obtain ⟨hsub_md, hnan_md⟩ := subDaySecs_zeros ⟨0, (m : ℚ), (d : ℚ), 0, 0, 0⟩ rfl rfl rfl
  have hRvalid : validDate (dateSatAddDays
      ⟨newYearOf p ⟨0, (m : ℚ), (d : ℚ), 0, 0, 0⟩,
        newMonthOf p ⟨0, (m : ℚ), (d : ℚ), 0, 0, 0⟩,
        clampedDayOf p ⟨0, (m : ℚ), (d : ℚ), 0, 0, 0⟩⟩
      (daysDurationSecs ⟨0, 0, (d : ℚ), 0, 0, 0⟩)) :=
    (dateSatAddDays_spec _ _ hCvalid).1
  constructor
  · refine ⟨⟨⟨newYearOf p ⟨0, (m : ℚ), (d : ℚ), 0, 0, 0⟩,
        newMonthOf p ⟨0, (m : ℚ), (d : ℚ), 0, 0, 0⟩,
        clampedDayOf p ⟨0, (m : ℚ), (d : ℚ), 0, 0, 0⟩⟩, p.timeNanos, p.offset⟩,
      ⟨dateSatAddDays
        ⟨newYearOf p ⟨0, (m : ℚ), (d : ℚ), 0, 0, 0⟩,
          newMonthOf p ⟨0, (m : ℚ), (d : ℚ), 0, 0, 0⟩,
          clampedDayOf p ⟨0, (m : ℚ), (d : ℚ), 0, 0, 0⟩⟩
        (daysDurationSecs ⟨0, 0, (d : ℚ), 0, 0, 0⟩), p.timeNanos, p.offset⟩, ?_, ?_, ?_⟩
    · rw [add_of_some p _ _ 0 hcd_m hsub_m, daysDurationSecs_zero _ rfl,
        dateSatAddDays_zero _ hCvalid, hnan_m, hz]
      exact congrArg some (odtSatAdd_zero _ ⟨hCvalid, ht1, ht2⟩)
    · have hcd_d : clampedDate
          ⟨⟨newYearOf p ⟨0, (m : ℚ), (d : ℚ), 0, 0, 0⟩,
            newMonthOf p ⟨0, (m : ℚ), (d : ℚ), 0, 0, 0⟩,
            clampedDayOf p ⟨0, (m : ℚ), (d : ℚ), 0, 0, 0⟩⟩, p.timeNanos, p.offset⟩
          ⟨0, 0, (d : ℚ), 0, 0, 0⟩ =
          some ⟨newYearOf p ⟨0, (m : ℚ), (d : ℚ), 0, 0, 0⟩,
            newMonthOf p ⟨0, (m : ℚ), (d : ℚ), 0, 0, 0⟩,
            clampedDayOf p ⟨0, (m : ℚ), (d : ℚ), 0, 0, 0⟩⟩ :=
        clampedDate_zero_ym _ _ hCvalid rfl rfl
      rw [add_of_some _ _ _ 0 hcd_d hsub_d, hnan_d, hz]
      exact congrArg some (odtSatAdd_zero _ ⟨hRvalid, ht1, ht2⟩)
    · rw [add_of_some p _ _ 0 hcd_md hsub_md, hnan_md, hz]
      exact congrArg some (odtSatAdd_zero _ ⟨hRvalid, ht1, ht2⟩)
  · decide

theorem c6_stage_order_witness :
    ∃ q1 q2, add pJan31 ⟨0, ((1 : ℕ) : ℚ), 0, 0, 0, 0⟩ = some q1 ∧
      add q1 ⟨0, 0, ((1 : ℕ) : ℚ), 0, 0, 0⟩ = some q2 ∧
      add pJan31 ⟨0, ((1 : ℕ) : ℚ), ((1 : ℕ) : ℚ), 0, 0, 0⟩ = some q2 :=
  (c6_stage_order pJan31 1 1 (by decide) (by decide) (by decide)).1

/-- C9 counterexample: a negative month field is not applied as a negative
offset through the documented arithmetic.  `rhs.month as u32` is a saturating
float-to-unsigned cast, so month -1 becomes 0: 2023-03-15 plus `{month: -1}`
returns the input unchanged (month still 3) instead of moving to February. -/
theorem c9_counterexample :
    add pMar15 ⟨0, (-1 : ℚ), 0, 0, 0, 0⟩ = some pMar15 ∧ pMar15.date.month = 3 := by
  decide

theorem f2u32_ratTrunc (q : ℚ) : f2u32 ((ratTrunc q : ℤ) : ℚ) = f2u32 q := by
  unfold f2u32
  rw [ratTrunc_intCast]

theorem f2i32_ratTrunc (q : ℚ) : f2i32 ((ratTrunc q : ℤ) : ℚ) = f2i32 q := by
  unfold f2i32
  rw [ratTrunc_intCast]

theorem f2i64_ratTrunc (q : ℚ) : f2i64 ((ratTrunc q : ℤ) : ℚ) = f2i64 q := by
  unfold f2i64
  rw [ratTrunc_intCast]

theorem add_congr_monthCast (p : OffsetDateTime) (r1 r2 : Duration)
    (hY : r1.year = r2.year) (hMc : f2u32 r1.month = f2u32 r2.month)
    (hD : r1.day = r2.day) (hH : r1.hour = r2.hour) (hMin : r1.minute = r2.minute)
    (hS : r1.second = r2.second) : add p r1 = add p r2 := by
  rcases r1 with ⟨a1, b1, c1, d1, e1, f1⟩
  rcases r2 with ⟨a2, b2, c2, d2, e2, f2⟩
  simp only at hY hMc hD hH hMin hS
  subst hY
  subst hD
  subst hH
  subst hMin
  subst hS
  have hT : totalMonths0 p ⟨a1, b1, c1, d1, e1, f1⟩ =
      totalMonths0 p ⟨a1, b2, c1, d1, e1, f1⟩ := by
    unfold totalMonths0
    dsimp only
    rw [hMc]
  have hYr : newYearOf p ⟨a1, b1, c1, d1, e1, f1⟩ =
      newYearOf p ⟨a1, b2, c1, d1, e1, f1⟩ := by
    unfold newYearOf
    rw [hT]
  have hM : newMonthOf p ⟨a1, b1, c1, d1, e1, f1⟩ =
      newMonthOf p ⟨a1, b2, c1, d1, e1, f1⟩ := by
    unfold newMonthOf
    rw [hT]
  have hDay : clampedDayOf p ⟨a1, b1, c1, d1, e1, f1⟩ =
      clampedDayOf p ⟨a1, b2, c1, d1, e1, f1⟩ := by
    unfold clampedDayOf
    rw [hYr, hM]
  have hCD : clampedDate p ⟨a1, b1, c1, d1, e1, f1⟩ =
      clampedDate p ⟨a1, b2, c1, d1, e1, f1⟩ := by
    unfold clampedDate
    rw [hYr, hM, hDay]
  unfold add
  rw [hCD]
  rfl

/-- C9 (amended): negative duration fields are accepted without any
validation or error, and the year, day, hour, minute and second fields are
applied as negative offsets through the documented arithmetic; the month
field is the exception: the saturating `as u32` cast maps every negative
month to 0, so a negative month behaves exactly like month 0 instead of a
negative month offset. -/
theorem c9_negative_fields :
    (∀ (p : OffsetDateTime) (rhs : Duration), rhs.month < 0 →
      add p rhs = add p ⟨rhs.year, 0, rhs.day, rhs.hour, rhs.minute, rhs.second⟩) ∧
      add pMar15 ⟨(-1 : ℚ), 0, 0, 0, 0, 0⟩ =
        some ⟨⟨2022, 3, 15⟩, 36000000000000, 0⟩ ∧
      add pMar15 ⟨0, 0, (-1 : ℚ), 0, 0, 0⟩ =
        some ⟨⟨2023, 3, 14⟩, 36000000000000, 0⟩ ∧
      add pMar15 ⟨0, 0, 0, (-1 : ℚ), 0, 0⟩ =
        some ⟨⟨2023, 3, 15⟩, 32400000000000, 0⟩ ∧
      add pMar15 ⟨0, 0, 0, 0, (-1 : ℚ), 0⟩ =
        some ⟨⟨2023, 3, 15⟩, 35940000000000, 0⟩ ∧
      add pMar15 ⟨0, 0, 0, 0, 0, -(mkRat 3 2)⟩ =
        some ⟨⟨2023, 3, 15⟩, 35998500000000, 0⟩ := by
  refine ⟨?_, by decide, by decide, by decide, by decide, by decide⟩
  intro p rhs hneg
  refine add_congr_monthCast p rhs _ rfl ?_ rfl rfl rfl rfl
  rw [f2u32_nonpos rhs.month (le_of_lt hneg)]
  exact (f2u32_zero).symm

theorem c9_negative_fields_witness :
    add pMar15 ⟨0, (-1 : ℚ), 0, 0, 0, 0⟩ =
      add pMar15 ⟨(⟨0, (-1 : ℚ), 0, 0, 0, 0⟩ : Duration).year, 0,
        (⟨0, (-1 : ℚ), 0, 0, 0, 0⟩ : Duration).day,
        (⟨0, (-1 : ℚ), 0, 0, 0, 0⟩ : Duration).hour,
        (⟨0, (-1 : ℚ), 0, 0, 0, 0⟩ : Duration).minute,
        (⟨0, (-1 : ℚ), 0, 0, 0, 0⟩ : Duration).second⟩ :=
  c9_negative_fields.1 pMar15 ⟨0, (-1 : ℚ), 0, 0, 0, 0⟩ (by norm_num)

theorem add_congr_casts (p : OffsetDateTime) (r1 r2 : Duration)
    (hYc : f2i32 r1.year = f2i32 r2.year)
    (hMc : f2u32 r1.month = f2u32 r2.month)
    (hDc : f2i64 r1.day = f2i64 r2.day)
    (hHc : f2i64 r1.hour = f2i64 r2.hour)
    (hMinc : f2i64 r1.minute = f2i64 r2.minute)
    (hS : r1.second = r2.second) : add p r1 = add p r2 := by
  rcases r1 with ⟨a1, b1, c1, d1, e1, f1⟩
  rcases r2 with ⟨a2, b2, c2, d2, e2, f2⟩
  simp only at hYc hMc hDc hHc hMinc hS
  subst hS
  have hT : totalMonths0 p ⟨a1, b1, c1, d1, e1, f1⟩ =
      totalMonths0 p ⟨a2, b2, c2, d2, e2, f1⟩ := by
    unfold totalMonths0
    dsimp only
    rw [hMc]
  have hYr : newYearOf p ⟨a1, b1, c1, d1, e1, f1⟩ =
      newYearOf p ⟨a2, b2, c2, d2, e2, f1⟩ := by
    unfold newYearOf
    dsimp only
    rw [hT, hYc]
  have hM : newMonthOf p ⟨a1, b1, c1, d1, e1, f1⟩ =
      newMonthOf p ⟨a2, b2, c2, d2, e2, f1⟩ := by
    unfold newMonthOf
    rw [hT]
  have hDay : clampedDayOf p ⟨a1, b1, c1, d1, e1, f1⟩ =
      clampedDayOf p ⟨a2, b2, c2, d2, e2, f1⟩ := by
    unfold clampedDayOf
    rw [hYr, hM]
  have hCD : clampedDate p ⟨a1, b1, c1, d1, e1, f1⟩ =
      clampedDate p ⟨a2, b2, c2, d2, e2, f1⟩ := by
    unfold clampedDate
    rw [hYr, hM, hDay]
  have hHS : hoursSecs ⟨a1, b1, c1, d1, e1, f1⟩ = hoursSecs ⟨a2, b2, c2, d2, e2, f1⟩ := by
    unfold hoursSecs
    dsimp only
    rw [hHc]
  have hMS : minutesSecs ⟨a1, b1, c1, d1, e1, f1⟩ =
      minutesSecs ⟨a2, b2, c2, d2, e2, f1⟩ := by
    unfold minutesSecs
    dsimp only
    rw [hMinc]
  have hSD : subDaySecs ⟨a1, b1, c1, d1, e1, f1⟩ =
      subDaySecs ⟨a2, b2, c2, d2, e2, f1⟩ := by
    unfold subDaySecs
    rw [hHS, hMS]
  have hDD : daysDurationSecs ⟨a1, b1, c1, d1, e1, f1⟩ =
      daysDurationSecs ⟨a2, b2, c2, d2, e2, f1⟩ := by
    unfold daysDurationSecs
    dsimp only
    rw [hDc]
  unfold add
  rw [hCD, hSD, hDD]
  rfl

/-- C10: fractional values in the year, month, day, hour and minute fields
are truncated toward zero before use — replacing each of those five fields by
its truncation (`ratTrunc`, truncation toward zero) never changes the result
of `add` — while the second field is not truncated: the closing conjunct
shows that seconds 3/2 and 1 produce different results, so only the second
field retains its fractional component. -/
theorem c10_truncation :
    (∀ (p : OffsetDateTime) (rhs : Duration),
      add p rhs = add p ⟨((ratTrunc rhs.year : ℤ) : ℚ), ((ratTrunc rhs.month : ℤ) : ℚ),
        ((ratTrunc rhs.day : ℤ) : ℚ), ((ratTrunc rhs.hour : ℤ) : ℚ),
        ((ratTrunc rhs.minute : ℤ) : ℚ), rhs.second⟩) ∧
      add pMar15 ⟨0, 0, 0, 0, 0, mkRat 3 2⟩ ≠ add pMar15 ⟨0, 0, 0, 0, 0, 1⟩ := by
  constructor
  · intro p rhs
    exact add_congr_casts p rhs _ (f2i32_ratTrunc _).symm (f2u32_ratTrunc _).symm
      (f2i64_ratTrunc _).symm (f2i64_ratTrunc _).symm (f2i64_ratTrunc _).symm rfl
  · decide
